import Mathlib

/-!
Shallow embedding of two source files of the n8n repository:

* `packages/editor-ui/src/components/mixins/pinData.ts` — a Vue mixin with
  the methods `isValidPinDataJSON`, `isValidPinDataSize` and `isValidPinData`.
* the `InternalHooksClass` telemetry-hooks file — lifecycle hooks forwarding
  formatted payloads to an analytics backend.

External collaborators (the host `JSON.parse`, the `change-case` `snakeCase`
function, the `TelemetryHelpers` of `n8n-workflow`, the Vuex store getters,
the i18n `$locale.baseText`, the `MAX_WORKFLOW_PINNED_DATA_SIZE` constant and
the `stringSizeInBytes` helper) are parameters of the embedding: the class
under study only calls them.  Telemetry and console calls are modelled as an
emitted effect list; a thrown `TypeError` (a rejected promise of an `async`
method) is modelled with `Except`.
-/

/-! ## JavaScript string helpers used by the pinData mixin -/

/-- An error shown to the user through the mixin context method `$showError`:
the pair of the error message and the dialog title. -/
structure ShownError where
  message : String
  title : String
deriving DecidableEq, Repr

/-- The literal alternatives of the regular expression
`/JSON\.parse:|of the JSON data/g` in `isValidPinDataJSON`. -/
def noisePat1 : List Char := "JSON.parse:".toList

/-- Second alternative of the noise-stripping regular expression. -/
def noisePat2 : List Char := "of the JSON data".toList

/-- One left-to-right pass removing every non-overlapping occurrence of
`noisePat1` or `noisePat2` (first alternative preferred at equal position),
the semantics of `String.replace` with the global regex
`/JSON\.parse:|of the JSON data/g`.  Fuel is the length of the input; every
step consumes at least one character, so the fuel never runs out. -/
def removeNoiseAux : Nat → List Char → List Char
  | 0, _ => []
  | _ + 1, [] => []
  | fuel + 1, c :: rest =>
    if noisePat1.isPrefixOf (c :: rest) then
      removeNoiseAux fuel ((c :: rest).drop noisePat1.length)
    else if noisePat2.isPrefixOf (c :: rest) then
      removeNoiseAux fuel ((c :: rest).drop noisePat2.length)
    else c :: removeNoiseAux fuel rest

/-- `errMessage.replace(/JSON\.parse:|of the JSON data/g, '')`. -/
def removeNoise (s : String) : String :=
  String.mk (removeNoiseAux s.toList.length s.toList)

/-- `message.charAt(0).toUpperCase() + message.slice(1)`: upper-case the
first character (the empty string stays empty). -/
def capitalizeFirst (s : String) : String :=
  match s.toList with
  | [] => ""
  | c :: cs => String.mk (c.toUpper :: cs)

/-- Decimal value of a digit run, as computed by `parseInt(digits, 10)`. -/
def digitsToNat (ds : List Char) : Nat :=
  ds.foldl (fun acc c => acc * 10 + (c.toNat - '0'.toNat)) 0

/-- The literal part of the regular expression `/at position (\d+)/`. -/
def atPositionPat : List Char := "at position ".toList

/-- `errMessage.match(/at position (\d+)/)`: the first occurrence of the
literal `"at position "` followed by at least one digit; returns the value of
the maximal digit run that follows (the capture group, via `parseInt`). -/
def matchAtPosition : List Char → Option Nat
  | [] => none
  | c :: rest =>
    if atPositionPat.isPrefixOf (c :: rest) then
      let digits := ((c :: rest).drop atPositionPat.length).takeWhile Char.isDigit
      if digits.isEmpty then matchAtPosition rest else some (digitsToNat digits)
    else matchAtPosition rest

/-- `(data.slice(0, position).match(/\n/g) || []).length`: the number of
newline characters among the first `position` characters of `data`. -/
def lineBreaksUpTo (data : String) (position : Nat) : Nat :=
  ((data.toList.take position).filter (fun c => c = '\n')).length

/-! ## The pinData mixin -/

/-- A parse error thrown by the host `JSON.parse`; only its `message` is
observed by the mixin. -/
structure JsParseError where
  message : String
deriving DecidableEq, Repr

/-- An opaque parsed JSON value: the mixin discards the result of
`JSON.parse`, so only success vs. failure matters. -/
structure JsonValue where
  tag : Nat
deriving DecidableEq, Repr

/-- The external collaborators of the pinData mixin: the host `JSON.parse`,
the i18n message table `$locale.baseText`, the store getter `pinDataSize`,
the helper `stringSizeInBytes` and the `MAX_WORKFLOW_PINNED_DATA_SIZE`
constant. -/
structure PinDataEnv where
  parseJson : String → Except JsParseError JsonValue
  baseText : String → String
  pinDataSize : Nat
  stringSizeInBytes : String → Nat
  maxPinnedDataSize : Nat

/-- The body of the `catch` block of `isValidPinDataJSON`: strip the regex
noise from `error.message`, trim, capitalize, append `, line N` when the
original message matched `/at position (\d+)/`, append a final period, and
pair the result with the localized title. -/
def formatParseError (env : PinDataEnv) (data : String) (errMessage : String) :
    ShownError :=
  let title := env.baseText "runData.editOutputInvalid"
  let message := (removeNoise errMessage).trim
  let positionMatch := matchAtPosition errMessage.toList
  let capitalized := capitalizeFirst message
  let withLine :=
    match positionMatch with
    | some position =>
      capitalized ++ ", line " ++ toString (lineBreaksUpTo data position + 1)
    | none => capitalized
  { message := withLine ++ ".", title := title }

/-- `isValidPinDataJSON(data)`: returns `true` when `JSON.parse(data)`
succeeds; on failure formats the parse error, shows it via `$showError`, and
returns `false`.  The second component is the list of errors shown. -/
def isValidPinDataJSON (env : PinDataEnv) (data : String) :
    Bool × List ShownError :=
  match env.parseJson data with
  | .ok _ => (true, [])
  | .error e => (false, [formatParseError env data e.message])

/-- The error shown by `isValidPinDataSize` when the pinned data would grow
past `MAX_WORKFLOW_PINNED_DATA_SIZE`. -/
def tooLargeError (env : PinDataEnv) : ShownError :=
  { message := env.baseText "ndv.pinData.error.tooLarge.description",
    title := env.baseText "ndv.pinData.error.tooLarge.title" }

/-- `isValidPinDataSize(data)`: `false` (showing the too-large error) when
the store pin-data size plus `stringSizeInBytes(data)` exceeds
`MAX_WORKFLOW_PINNED_DATA_SIZE`, `true` otherwise. -/
def isValidPinDataSize (env : PinDataEnv) (data : String) :
    Bool × List ShownError :=
  if env.pinDataSize + env.stringSizeInBytes data > env.maxPinnedDataSize then
    (false, [tooLargeError env])
  else
    (true, [])

/-- `isValidPinData(data)`: `isValidPinDataJSON(data) &&
isValidPinDataSize(data)` with JavaScript short-circuiting — the size check
runs only when the JSON check succeeded.  Shown errors accumulate in order. -/
def isValidPinData (env : PinDataEnv) (data : String) :
    Bool × List ShownError :=
  let json := isValidPinDataJSON env data
  if json.1 then
    let size := isValidPinDataSize env data
    (size.1, json.2 ++ size.2)
  else
    (false, json.2)

/-! ## Data model of the InternalHooksClass embedding -/

/-- A JavaScript workflow id: `IWorkflowBase.id` is a string or a number
when present. -/
inductive JsId where
  | str (s : String)
  | num (n : Int)
deriving DecidableEq, Repr

/-- JavaScript truthiness of a possibly absent id: `undefined`, the empty
string and the number `0` are falsy. -/
def jsIdTruthy : Option JsId → Bool
  | none => false
  | some (.str s) => s ≠ ""
  | some (.num n) => n ≠ 0

/-- `workflow.id.toString()`. -/
def jsIdToString : JsId → String
  | .str s => s
  | .num n => toString n

/-- JavaScript truthiness of a possibly absent string (`undefined` and `""`
are falsy). -/
def strTruthy : Option String → Bool
  | none => false
  | some s => s ≠ ""

/-- `!!x` for a possibly absent boolean (`runData.finished`). -/
def boolTruthy : Option Bool → Bool
  | none => false
  | some b => b

/-- Lookup in a JavaScript object used as a string-keyed map; an absent key
reads as `undefined`. -/
def lookupStr (obj : List (String × String)) (key : String) : Option String :=
  (obj.find? (fun kv => kv.1 = key)).map (fun kv => kv.2)

/-- JavaScript object update `obj[k] = v`: an existing key keeps its
position and gets the new value, a new key is appended. -/
def objSet (obj : List (String × String)) (k : String) (v : String) :
    List (String × String) :=
  if obj.any (fun kv => kv.1 = k) then
    obj.map (fun kv => if kv.1 = k then (k, v) else kv)
  else
    obj ++ [(k, v)]

/-- A workflow as the hooks observe it: its id and its optional tag list
(`IWorkflowDb.tags`); nodes and connections are only ever inspected through
the external `TelemetryHelpers`, which the embedding parameterizes over. -/
structure Workflow where
  id : Option JsId
  tags : Option (List String)
deriving DecidableEq, Repr

/-- A sticky note of the generated node graph; only its `overlapping` flag
is read by `onWorkflowSaved`. -/
structure GraphNote where
  overlapping : Bool
deriving DecidableEq, Repr

/-- The node graph returned by `TelemetryHelpers.generateNodesGraph`:
`notes` is a string-keyed object (here an association list in key order). -/
structure NodeGraph where
  notes : List (String × GraphNote)
deriving DecidableEq, Repr

/-- The full result of `TelemetryHelpers.generateNodesGraph`. -/
structure NodesGraphResult where
  nodeGraph : NodeGraph
  nameIndices : List (String × String)
  webhookNodeName : Option String
deriving DecidableEq, Repr

/-- A node as returned by `TelemetryHelpers.getNodeTypeForName`, and the
`node` attached to an execution error. -/
structure GraphNodeType where
  name : String
  type : String
deriving DecidableEq, Repr

/-- The execution error of `runData.data.resultData.error`. -/
structure ExecError where
  message : String
  node : Option GraphNodeType
deriving DecidableEq, Repr

/-- One `INodeExecutionData`: its `json` object, of which only the
`headers` entry is ever read (by the leftover debug logging). -/
structure NodeExecData where
  jsonHeaders : Option String
deriving DecidableEq, Repr

/-- The `data` of an `ITaskData`: `main` is an array whose entries are node
execution data arrays or `null`. -/
structure TaskDataConnections where
  main : List (Option (List NodeExecData))
deriving DecidableEq, Repr

/-- One `ITaskData` of `resultData.runData[nodeName]`. -/
structure TaskData where
  data : Option TaskDataConnections
deriving DecidableEq, Repr

/-- `runData.data.resultData`. -/
structure ResultData where
  error : Option ExecError
  lastNodeExecuted : Option String
  runData : List (String × List TaskData)
deriving DecidableEq, Repr

/-- `runData.data.startData`. -/
structure StartData where
  destinationNode : Option String
deriving DecidableEq, Repr

/-- `runData.data` of an `IRun`. -/
structure RunExecutionData where
  resultData : ResultData
  startData : Option StartData
deriving DecidableEq, Repr

/-- An `IRun`: the run data handed to `onWorkflowPostExecute`. -/
structure IRun where
  mode : String
  finished : Option Bool
  data : RunExecutionData
deriving DecidableEq, Repr

/-- Lookup of `resultData.runData[nodeName]` (a JavaScript object read:
absent keys give `undefined`). -/
def lookupRunData (rd : List (String × List TaskData)) (key : String) :
    Option (List TaskData) :=
  (rd.find? (fun kv => kv.1 = key)).map (fun kv => kv.2)

/-- The `IExecutionTrackProperties` record assembled by
`onWorkflowPostExecute` and passed to `telemetry.trackWorkflowExecution`. -/
structure ExecProps where
  workflow_id : String
  is_manual : Bool
  version_cli : String
  success : Bool
  user_id : Option String := none
  execution_mode : Option String := none
  error_message : Option String := none
  error_node_type : Option String := none
  error_node_id : Option String := none
  node_graph : Option NodeGraph := none
  node_graph_string : Option String := none
deriving DecidableEq, Repr

/-- The `manualExecEventProperties` record of the manual-execution branch. -/
structure ManualExecProps where
  workflow_id : JsId
  status : String
  error_message : Option String
  error_node_type : Option String
  node_graph : Option NodeGraph
  node_graph_string : Option String
  error_node_id : Option String
deriving DecidableEq, Repr

/-- Opaque handle standing for the injected `INodeTypes` registry. -/
structure NodeTypesHandle where
  ref : Nat
deriving DecidableEq, Repr

/-- Opaque handle standing for the injected `Telemetry` client. -/
structure TelemetryHandle where
  ref : Nat
deriving DecidableEq, Repr

/-- The instance fields of `InternalHooksClass`, set by its constructor. -/
structure InternalHooksState where
  telemetry : TelemetryHandle
  versionCli : String
  nodeTypes : NodeTypesHandle
deriving DecidableEq, Repr

/-- The external pure collaborators of the hooks class:
`TelemetryHelpers.generateNodesGraph`, `TelemetryHelpers.getNodeTypeForName`,
`JSON.stringify` on node graphs, and `snakeCase` of the change-case
library. -/
structure Helpers where
  generateNodesGraph : Workflow → NodeTypesHandle → NodesGraphResult
  getNodeTypeForName : Workflow → String → Option GraphNodeType
  stringifyGraph : NodeGraph → String
  snakeCase : String → String

/-- The `IDiagnosticInfo` passed to `onServerStarted`; the two open-ended
object fields are carried opaquely as strings. -/
structure DiagnosticInfo where
  versionCli : String
  databaseType : String
  notificationsEnabled : Bool
  disableProductionWebhooksOnMainProcess : Bool
  basicAuthActive : Bool
  systemInfo : String
  executionVariables : String
  deploymentType : String
  binaryDataMode : String
  n8n_multi_user_allowed : Bool
  smtp_set_up : Bool
deriving DecidableEq, Repr

/-- The renamed `info` object built by `onServerStarted`. -/
structure ServerInfo where
  version_cli : String
  db_type : String
  n8n_version_notifications_enabled : Bool
  n8n_disable_production_main_process : Bool
  n8n_basic_auth_active : Bool
  system_info : String
  execution_variables : String
  n8n_deployment_type : String
  n8n_binary_data_mode : String
  n8n_multi_user_allowed : Bool
  smtp_set_up : Bool
deriving DecidableEq, Repr

/-- Payload of `onWorkflowCreated`. -/
structure WorkflowCreatedPayload where
  user_id : String
  workflow_id : Option JsId
  node_graph : NodeGraph
  node_graph_string : String
  public_api : Bool
deriving DecidableEq, Repr

/-- Payload of `onWorkflowSaved`. -/
structure WorkflowSavedPayload where
  user_id : String
  workflow_id : Option JsId
  node_graph : NodeGraph
  node_graph_string : String
  notes_count_overlapping : Nat
  notes_count_non_overlapping : Nat
  version_cli : String
  num_tags : Nat
  public_api : Bool
deriving DecidableEq, Repr

/-- Payload of `onWorkflowDeleted`. -/
structure WorkflowDeletedPayload where
  user_id : String
  workflow_id : String
  public_api : Bool
deriving DecidableEq, Repr

/-- The `ITelemetryUserDeletionData` spread into the `onUserDeletion`
payload; its fields are carried opaquely. -/
structure UserDeletionData where
  fields : List (String × String)
deriving DecidableEq, Repr

/-- Payload shape `{ user_id, target_user_id: string[], public_api }`. -/
structure UserInviteData where
  user_id : String
  target_user_id : List String
  public_api : Bool
deriving DecidableEq, Repr

/-- Payload shape `{ user_id, target_user_id: string, public_api }`. -/
structure UserReinviteData where
  user_id : String
  target_user_id : String
  public_api : Bool
deriving DecidableEq, Repr

/-- Payload shape `{ user_id, public_api }`, shared by the retrieval and
API-key hooks. -/
structure UserPublicApiData where
  user_id : String
  public_api : Bool
deriving DecidableEq, Repr

/-- Payload shape `{ user_id, fields_changed }` of `onUserUpdate`. -/
structure UserUpdateData where
  user_id : String
  fields_changed : List String
deriving DecidableEq, Repr

/-- Payload shape `{ user_id }` of the click/signup/setup hooks. -/
structure UserIdData where
  user_id : String
deriving DecidableEq, Repr

/-- Payload shape `{ user_id, message_type, public_api }` of the
transactional-email hooks. -/
structure TransactionalEmailData where
  user_id : String
  message_type : String
  public_api : Bool
deriving DecidableEq, Repr

/-- Payload shape `{ user_id, path, method, api_version }`. -/
structure InvokedApiData where
  user_id : String
  path : String
  method : String
  api_version : String
deriving DecidableEq, Repr

/-- The payload of a `telemetry.track` call, one constructor per payload
shape appearing in the class. -/
inductive Payload where
  | serverStarted (info : ServerInfo) (earliest_workflow_created : Option String)
  | survey (entries : List (String × String))
  | workflowCreated (d : WorkflowCreatedPayload)
  | workflowDeleted (d : WorkflowDeletedPayload)
  | workflowSaved (d : WorkflowSavedPayload)
  | manualNodeExec (d : ManualExecProps) (node_type : Option String)
      (node_id : Option String)
  | manualWorkflowExec (d : ManualExecProps)
  | userDeletion (d : UserDeletionData) (user_id : String) (public_api : Bool)
  | userInvite (d : UserInviteData)
  | userReinvite (d : UserReinviteData)
  | userPublicApi (d : UserPublicApiData)
  | userUpdate (d : UserUpdateData)
  | userIdOnly (d : UserIdData)
  | transactionalEmail (d : TransactionalEmailData)
  | invokedApi (d : InvokedApiData)
deriving DecidableEq, Repr

/-- An observable effect of a hook method: a call on the injected
`Telemetry` client, binary-data persistence, or console output of the
leftover debug block. -/
inductive Effect where
  | identify (info : ServerInfo)
  | track (event : String) (payload : Payload)
  | trackWorkflowExecution (props : ExecProps)
  | trackN8nStopCall
  | persistBinaryData (executionId : String)
  | consoleLog (msg : String)
  | consoleLogHeaders (headers : Option String)
deriving DecidableEq, Repr

/-- A `TypeError` thrown while the hook body runs; an `async` method turns
it into a rejected promise. -/
inductive JsError where
  | typeError (msg : String)
deriving DecidableEq, Repr

/-! ## The hook methods

Each method takes the instance state explicitly and returns it together
with the effects it performs (the source never assigns to `this`, so the
returned state is the input state). -/

/-- `onServerStarted`: renames the diagnostic info and issues an `identify`
and an `Instance started` track call. -/
def onServerStarted (s : InternalHooksState) (diagnosticInfo : DiagnosticInfo)
    (earliestWorkflowCreatedAt : Option String) :
    InternalHooksState × List Effect :=
  let info : ServerInfo :=
    { version_cli := diagnosticInfo.versionCli,
      db_type := diagnosticInfo.databaseType,
      n8n_version_notifications_enabled := diagnosticInfo.notificationsEnabled,
      n8n_disable_production_main_process :=
        diagnosticInfo.disableProductionWebhooksOnMainProcess,
      n8n_basic_auth_active := diagnosticInfo.basicAuthActive,
      system_info := diagnosticInfo.systemInfo,
      execution_variables := diagnosticInfo.executionVariables,
      n8n_deployment_type := diagnosticInfo.deploymentType,
      n8n_binary_data_mode := diagnosticInfo.binaryDataMode,
      n8n_multi_user_allowed := diagnosticInfo.n8n_multi_user_allowed,
      smtp_set_up := diagnosticInfo.smtp_set_up }
  (s, [Effect.identify info,
       Effect.track "Instance started"
         (Payload.serverStarted info earliestWorkflowCreatedAt)])

/-- The object-building loop of `onPersonalizationSurveySubmitted`,
generalized over the key-conversion function and the starting object: for
every entry of `answers`, in key order, write its value under the converted
key with JavaScript object-update semantics. -/
def surveyEntriesFrom (f : String → String) (acc : List (String × String))
    (answers : List (String × String)) : List (String × String) :=
  answers.foldl (fun a kv => objSet a (f kv.1) kv.2) acc

/-- The `personalizationSurveyData` object of
`onPersonalizationSurveySubmitted`: starts from `{ user_id: userId }` and
writes `answers[k]` under `snakeCase(k)` for every key `k` of `answers`. -/
def surveyEntries (H : Helpers) (userId : String)
    (answers : List (String × String)) : List (String × String) :=
  surveyEntriesFrom H.snakeCase [("user_id", userId)] answers

/-- `onPersonalizationSurveySubmitted`. -/
def onPersonalizationSurveySubmitted (H : Helpers) (s : InternalHooksState)
    (userId : String) (answers : List (String × String)) :
    InternalHooksState × List Effect :=
  (s, [Effect.track "User responded to personalization questions"
        (Payload.survey (surveyEntries H userId answers))])

/-- `onWorkflowCreated`. -/
def onWorkflowCreated (H : Helpers) (s : InternalHooksState) (userId : String)
    (workflow : Workflow) (publicApi : Bool) :
    InternalHooksState × List Effect :=
  let nodeGraph := (H.generateNodesGraph workflow s.nodeTypes).nodeGraph
  (s, [Effect.track "User created workflow"
        (Payload.workflowCreated
          { user_id := userId, workflow_id := workflow.id,
            node_graph := nodeGraph,
            node_graph_string := H.stringifyGraph nodeGraph,
            public_api := publicApi })])

/-- `onWorkflowDeleted`. -/
def onWorkflowDeleted (s : InternalHooksState) (userId : String)
    (workflowId : String) (publicApi : Bool) :
    InternalHooksState × List Effect :=
  (s, [Effect.track "User deleted workflow"
        (Payload.workflowDeleted
          { user_id := userId, workflow_id := workflowId,
            public_api := publicApi })])

/-- `onWorkflowSaved`: counts the notes of the generated node graph and
splits them into overlapping and non-overlapping. -/
def onWorkflowSaved (H : Helpers) (s : InternalHooksState) (userId : String)
    (workflow : Workflow) (publicApi : Bool) :
    InternalHooksState × List Effect :=
  let nodeGraph := (H.generateNodesGraph workflow s.nodeTypes).nodeGraph
  let notesCount := nodeGraph.notes.length
  let overlappingCount :=
    (nodeGraph.notes.filter (fun kv => kv.2.overlapping)).length
  (s, [Effect.track "User saved workflow"
        (Payload.workflowSaved
          { user_id := userId, workflow_id := workflow.id,
            node_graph := nodeGraph,
            node_graph_string := H.stringifyGraph nodeGraph,
            notes_count_overlapping := overlappingCount,
            notes_count_non_overlapping := notesCount - overlappingCount,
            version_cli := s.versionCli,
            num_tags := match workflow.tags with
              | some tags => tags.length
              | none => 0,
            public_api := publicApi })])

/-- The `properties` record of `onWorkflowPostExecute` as first initialized
(lines before the `runData` branch), including the optional `user_id`. -/
def initExecProps (s : InternalHooksState) (idString : String)
    (userId : Option String) : ExecProps :=
  let p : ExecProps :=
    { workflow_id := idString, is_manual := false,
      version_cli := s.versionCli, success := false }
  if strTruthy userId then { p with user_id := userId } else p

/-- The `runData !== undefined` part of the `properties` assembly of
`onWorkflowPostExecute` (mode, success, manual flag, and the error branch
that may also generate the node graph); returns the finished record and the
`nodeGraphResult` local if it was set. -/
def buildExecProps (H : Helpers) (s : InternalHooksState) (workflow : Workflow)
    (p0 : ExecProps) (rd : IRun) : ExecProps × Option NodesGraphResult :=
  let p := { p0 with
    execution_mode := some rd.mode,
    success := boolTruthy rd.finished,
    is_manual := rd.mode == "manual" }
  match boolTruthy rd.finished, rd.data.resultData.error with
  | false, some err =>
    let p := { p with
      error_message := some err.message,
      error_node_type := err.node.map (fun (n : GraphNodeType) => n.type) }
    let errorNodeName := err.node.map (fun (n : GraphNodeType) => n.name)
    let step :=
      if strTruthy rd.data.resultData.lastNodeExecuted then
        match H.getNodeTypeForName workflow
            (rd.data.resultData.lastNodeExecuted.getD "") with
        | some lastNode =>
          ({ p with error_node_type := some lastNode.type },
           some lastNode.name)
        | none => (p, errorNodeName)
      else (p, errorNodeName)
    let p := step.1
    let errorNodeName := step.2
    if p.is_manual then
      let nodeGraphResult := H.generateNodesGraph workflow s.nodeTypes
      let p := { p with
        node_graph := some nodeGraphResult.nodeGraph,
        node_graph_string :=
          some (H.stringifyGraph nodeGraphResult.nodeGraph) }
      let p :=
        if strTruthy errorNodeName then
          { p with error_node_id :=
              lookupStr nodeGraphResult.nameIndices (errorNodeName.getD "") }
        else p
      (p, some nodeGraphResult)
    else (p, none)
  | _, _ => (p, none)

/-- The manual-execution tail of `onWorkflowPostExecute` (source lines 170
to 223): builds `manualExecEventProperties` and pushes the matching track
call, or runs the leftover webhook debug block, which indexes
`resultData.runData[webhookNodeName][0]` unguarded and can throw. -/
def manualExecEffects (H : Helpers) (s : InternalHooksState)
    (workflow : Workflow) (i : JsId) (rd : IRun) (p : ExecProps)
    (nodeGraphResult0 : Option NodesGraphResult) :
    Except JsError (List Effect) :=
  if p.is_manual then
    let nodeGraphResult :=
      match nodeGraphResult0 with
      | some g => g
      | none => H.generateNodesGraph workflow s.nodeTypes
    let mep : ManualExecProps :=
      { workflow_id := i,
        status := if p.success then "success" else "failed",
        error_message := p.error_message,
        error_node_type := p.error_node_type,
        node_graph := p.node_graph,
        node_graph_string := p.node_graph_string,
        error_node_id := p.error_node_id }
    let step :=
      if mep.node_graph.isNone then
        let g := H.generateNodesGraph workflow s.nodeTypes
        ({ mep with
            node_graph := some g.nodeGraph,
            node_graph_string := some (H.stringifyGraph g.nodeGraph) }, g)
      else (mep, nodeGraphResult)
    let mep := step.1
    let nodeGraphResult := step.2
    let destination := rd.data.startData.bind (fun sd => sd.destinationNode)
    if strTruthy destination then
      .ok [Effect.track "Manual node exec finished"
            (Payload.manualNodeExec mep
              ((H.getNodeTypeForName workflow (destination.getD "")).map
                (fun n => n.type))
              (lookupStr nodeGraphResult.nameIndices (destination.getD "")))]
    else
      if strTruthy nodeGraphResult.webhookNodeName then
        match lookupRunData rd.data.resultData.runData
            (nodeGraphResult.webhookNodeName.getD "") with
        | none => .error (JsError.typeError
            "Cannot read properties of undefined (reading 0)")
        | some tasks =>
          match tasks with
          | [] => .error (JsError.typeError
              "Cannot read properties of undefined (reading data)")
          | t0 :: _ =>
            let md := t0.data.bind (fun d => d.main.head?.bind (fun e => e))
            match md with
            | some [] => .error (JsError.typeError
                "Cannot read properties of undefined (reading json)")
            | some (x :: _) =>
              .ok [Effect.consoleLog "A", Effect.consoleLog "B",
                   Effect.consoleLog "C",
                   Effect.consoleLogHeaders x.jsonHeaders,
                   Effect.track "Manual workflow exec finished"
                     (Payload.manualWorkflowExec mep)]
            | none =>
              .ok [Effect.consoleLog "A", Effect.consoleLog "B",
                   Effect.track "Manual workflow exec finished"
                     (Payload.manualWorkflowExec mep)]
      else
        .ok [Effect.consoleLog "A",
             Effect.track "Manual workflow exec finished"
               (Payload.manualWorkflowExec mep)]
  else .ok []

/-- `onWorkflowPostExecute`: returns immediately on a falsy workflow id;
otherwise assembles the execution track properties, runs the manual branch,
and finishes with binary-data persistence and
`telemetry.trackWorkflowExecution`.  A `TypeError` of the debug block
rejects the whole promise. -/
def onWorkflowPostExecute (H : Helpers) (s : InternalHooksState)
    (executionId : String) (workflow : Workflow) (runData : Option IRun)
    (userId : Option String) :
    InternalHooksState × Except JsError (List Effect) :=
  if jsIdTruthy workflow.id then
    match workflow.id with
    | none => (s, .ok [])
    | some i =>
      let p0 := initExecProps s (jsIdToString i) userId
      match runData with
      | none =>
        (s, .ok [Effect.persistBinaryData executionId,
                 Effect.trackWorkflowExecution p0])
      | some rd =>
        let built := buildExecProps H s workflow p0 rd
        match manualExecEffects H s workflow i rd built.1 built.2 with
        | .error e => (s, .error e)
        | .ok tracks =>
          (s, .ok (tracks ++ [Effect.persistBinaryData executionId,
                              Effect.trackWorkflowExecution built.1]))
  else (s, .ok [])

/-- Settlement outcome of a promise in the timed model. -/
inductive PromiseOutcome where
  | resolved
  | rejected
deriving DecidableEq, Repr

/-- A settled-promise denotation: the instant (in milliseconds from the
call) at which the promise settles and how. -/
structure TimedPromise where
  settleAt : Nat
  outcome : PromiseOutcome
deriving DecidableEq, Repr

/-- `new Promise((resolve) => setTimeout(resolve, ms))`: resolves exactly
`ms` milliseconds after creation. -/
def setTimeoutPromise (ms : Nat) : TimedPromise :=
  { settleAt := ms, outcome := PromiseOutcome.resolved }

/-- `Promise.race([p, q])`: settles like the first argument to settle; on a
tie JavaScript delivers the earlier-listed promise first. -/
def promiseRace (p q : TimedPromise) : TimedPromise :=
  if q.settleAt < p.settleAt then q else p

/-- Timed model of `onN8nStop`: the race of a 3000 ms timeout promise
against `telemetry.trackN8nStop()`, whose settlement is the parameter. -/
def onN8nStopTimed (trackN8nStop : TimedPromise) : TimedPromise :=
  promiseRace (setTimeoutPromise 3000) trackN8nStop

/-- `onN8nStop` as a state/effect method: it calls
`telemetry.trackN8nStop()` (the timeout race is the timed model above). -/
def onN8nStop (s : InternalHooksState) : InternalHooksState × List Effect :=
  (s, [Effect.trackN8nStopCall])

/-- `onUserDeletion`. -/
def onUserDeletion (s : InternalHooksState) (userId : String)
    (userDeletionData : UserDeletionData) (publicApi : Bool) :
    InternalHooksState × List Effect :=
  (s, [Effect.track "User deleted user"
        (Payload.userDeletion userDeletionData userId publicApi)])

/-- `onUserInvite`. -/
def onUserInvite (s : InternalHooksState) (userInviteData : UserInviteData) :
    InternalHooksState × List Effect :=
  (s, [Effect.track "User invited new user" (Payload.userInvite userInviteData)])

/-- `onUserReinvite`. -/
def onUserReinvite (s : InternalHooksState)
    (userReinviteData : UserReinviteData) : InternalHooksState × List Effect :=
  (s, [Effect.track "User resent new user invite email"
        (Payload.userReinvite userReinviteData)])

/-- `onUserRetrievedUser`. -/
def onUserRetrievedUser (s : InternalHooksState) (d : UserPublicApiData) :
    InternalHooksState × List Effect :=
  (s, [Effect.track "User retrieved user" (Payload.userPublicApi d)])

/-- `onUserRetrievedAllUsers`. -/
def onUserRetrievedAllUsers (s : InternalHooksState) (d : UserPublicApiData) :
    InternalHooksState × List Effect :=
  (s, [Effect.track "User retrieved all users" (Payload.userPublicApi d)])

/-- `onUserRetrievedExecution`. -/
def onUserRetrievedExecution (s : InternalHooksState) (d : UserPublicApiData) :
    InternalHooksState × List Effect :=
  (s, [Effect.track "User retrieved execution" (Payload.userPublicApi d)])

/-- `onUserRetrievedAllExecutions`. -/
def onUserRetrievedAllExecutions (s : InternalHooksState)
    (d : UserPublicApiData) : InternalHooksState × List Effect :=
  (s, [Effect.track "User retrieved all executions" (Payload.userPublicApi d)])

/-- `onUserRetrievedWorkflow`. -/
def onUserRetrievedWorkflow (s : InternalHooksState) (d : UserPublicApiData) :
    InternalHooksState × List Effect :=
  (s, [Effect.track "User retrieved workflow" (Payload.userPublicApi d)])

/-- `onUserRetrievedAllWorkflows`. -/
def onUserRetrievedAllWorkflows (s : InternalHooksState)
    (d : UserPublicApiData) : InternalHooksState × List Effect :=
  (s, [Effect.track "User retrieved all workflows" (Payload.userPublicApi d)])

/-- `onUserUpdate`. -/
def onUserUpdate (s : InternalHooksState) (userUpdateData : UserUpdateData) :
    InternalHooksState × List Effect :=
  (s, [Effect.track "User changed personal settings"
        (Payload.userUpdate userUpdateData)])

/-- `onUserInviteEmailClick`. -/
def onUserInviteEmailClick (s : InternalHooksState) (d : UserIdData) :
    InternalHooksState × List Effect :=
  (s, [Effect.track "User clicked invite link from email"
        (Payload.userIdOnly d)])

/-- `onUserPasswordResetEmailClick`. -/
def onUserPasswordResetEmailClick (s : InternalHooksState) (d : UserIdData) :
    InternalHooksState × List Effect :=
  (s, [Effect.track "User clicked password reset link from email"
        (Payload.userIdOnly d)])

/-- `onUserTransactionalEmail`. -/
def onUserTransactionalEmail (s : InternalHooksState)
    (d : TransactionalEmailData) : InternalHooksState × List Effect :=
  (s, [Effect.track "Instance sent transacptional email to user"
        (Payload.transactionalEmail d)])

/-- `onUserInvokedApi`. -/
def onUserInvokedApi (s : InternalHooksState) (d : InvokedApiData) :
    InternalHooksState × List Effect :=
  (s, [Effect.track "User invoked API" (Payload.invokedApi d)])

/-- `onApiKeyDeleted`. -/
def onApiKeyDeleted (s : InternalHooksState) (d : UserPublicApiData) :
    InternalHooksState × List Effect :=
  (s, [Effect.track "API key deleted" (Payload.userPublicApi d)])

/-- `onApiKeyCreated`. -/
def onApiKeyCreated (s : InternalHooksState) (d : UserPublicApiData) :
    InternalHooksState × List Effect :=
  (s, [Effect.track "API key created" (Payload.userPublicApi d)])

/-- `onUserPasswordResetRequestClick`. -/
def onUserPasswordResetRequestClick (s : InternalHooksState) (d : UserIdData) :
    InternalHooksState × List Effect :=
  (s, [Effect.track "User requested password reset while logged out"
        (Payload.userIdOnly d)])

/-- `onInstanceOwnerSetup`. -/
def onInstanceOwnerSetup (s : InternalHooksState) (d : UserIdData) :
    InternalHooksState × List Effect :=
  (s, [Effect.track "Owner finished instance setup" (Payload.userIdOnly d)])

/-- `onUserSignup`. -/
def onUserSignup (s : InternalHooksState) (d : UserIdData) :
    InternalHooksState × List Effect :=
  (s, [Effect.track "User signed up" (Payload.userIdOnly d)])

/-- `onEmailFailed`. -/
def onEmailFailed (s : InternalHooksState) (d : TransactionalEmailData) :
    InternalHooksState × List Effect :=
  (s, [Effect.track "Instance failed to send transactional email to user"
        (Payload.transactionalEmail d)])

/-! ## Concrete fixtures used by witnesses and counterexamples -/

/-- A pinData environment whose `JSON.parse` always fails with a
position-bearing message. -/
def pinEnvErr : PinDataEnv :=
  { parseJson := fun _ =>
      Except.error { message := "Unexpected token x in JSON at position 7" },
    baseText := fun key => key,
    pinDataSize := 10,
    stringSizeInBytes := fun s => s.length,
    maxPinnedDataSize := 100 }

/-- A pinData environment whose `JSON.parse` always succeeds. -/
def pinEnvOk : PinDataEnv :=
  { parseJson := fun _ => Except.ok { tag := 0 },
    baseText := fun key => key,
    pinDataSize := 10,
    stringSizeInBytes := fun s => s.length,
    maxPinnedDataSize := 100 }

/-! ## Claims about the pinData mixin -/

/-- C4: `isValidPinDataJSON(data)` returns `true` exactly when
`JSON.parse(data)` succeeds; on failure it shows exactly one error through
`$showError` and returns `false`, and on success it shows none. -/
theorem isValidPinDataJSON_iff_parse (env : PinDataEnv) (data : String) :
    (isValidPinDataJSON env data).1 = (env.parseJson data).isOk ∧
    (isValidPinDataJSON env data).2.length =
      (if (env.parseJson data).isOk then 0 else 1) := by
  cases h : env.parseJson data <;>
    simp [isValidPinDataJSON, h, Except.isOk, Except.toBool]

/-- C9: `isValidPinDataSize(data)` returns `true` iff the store pin-data
size plus `stringSizeInBytes(data)` stays within
`MAX_WORKFLOW_PINNED_DATA_SIZE`, shows the too-large error exactly when it
returns `false`, and `isValidPinData` short-circuits: when the JSON check
fails the size check never runs (its result and shown errors are those of
the JSON check alone). -/
theorem isValidPinDataSize_spec (env : PinDataEnv) (data : String) :
    ((isValidPinDataSize env data).1 = true ↔
      env.pinDataSize + env.stringSizeInBytes data ≤ env.maxPinnedDataSize) ∧
    ((isValidPinDataSize env data).2 =
      if env.pinDataSize + env.stringSizeInBytes data ≤ env.maxPinnedDataSize
      then [] else [tooLargeError env]) ∧
    ((env.parseJson data).isOk = false →
      isValidPinData env data = isValidPinDataJSON env data) := by
  refine ⟨?_, ?_, ?_⟩
  · unfold isValidPinDataSize
    by_cases h : env.pinDataSize + env.stringSizeInBytes data >
        env.maxPinnedDataSize
    · simp [h] <;> omega
    · simp [h] <;> omega
  · unfold isValidPinDataSize
    by_cases h : env.pinDataSize + env.stringSizeInBytes data >
        env.maxPinnedDataSize
    · rw [if_pos h, if_neg (by omega)]
    · rw [if_neg h, if_pos (by omega)]
  · intro hfail
    cases h : env.parseJson data with
    | ok v => rw [h] at hfail; simp [Except.isOk, Except.toBool] at hfail
    | error e => simp [isValidPinData, isValidPinDataJSON, h]

/-- C9 witness: at a concrete environment with a failing parse,
`isValidPinData` equals the JSON check alone, and the size check accepts a
small input. -/
theorem isValidPinDataSize_spec_witness :
    isValidPinData pinEnvErr "bad" = isValidPinDataJSON pinEnvErr "bad" ∧
    (isValidPinDataSize pinEnvOk "xy").1 = true :=
  ⟨(isValidPinDataSize_spec pinEnvErr "bad").2.2 (by decide),
   ((isValidPinDataSize_spec pinEnvOk "xy").1).mpr (by decide)⟩

/-- C10: whenever the original parse-error message matches
`/at position (\d+)/` with first captured value `n`, the message shown to
the user ends with `, line L.` where `L` is one more than the number of
newline characters among the first `n` characters of `data`. -/
theorem formatParseError_line_suffix (env : PinDataEnv)
    (data errMessage : String) (n : Nat)
    (hmatch : matchAtPosition errMessage.toList = some n) :
    ∃ pre : String,
      (formatParseError env data errMessage).message =
        pre ++ (", line " ++ toString (lineBreaksUpTo data n + 1) ++ ".") := by
  refine ⟨capitalizeFirst ((removeNoise errMessage).trim), ?_⟩
  unfold formatParseError
  rw [hmatch]
  simp [String.append_assoc]

/-- C10 witness: a concrete invalid JSON string with two newlines before
position 7 is reported on line 3. -/
theorem formatParseError_line_suffix_witness :
    ∃ pre : String,
      (formatParseError pinEnvErr "[1,\n2,\nx]"
          "Unexpected token x in JSON at position 7").message =
        pre ++ (", line " ++ toString (lineBreaksUpTo "[1,\n2,\nx]" 7 + 1) ++ ".") :=
  formatParseError_line_suffix pinEnvErr "[1,\n2,\nx]"
    "Unexpected token x in JSON at position 7" 7 (by decide)

/-! ## Concrete telemetry fixtures -/

/-- A node graph with no notes. -/
def noNotesGraph : NodeGraph := { notes := [] }

/-- Helpers whose node-graph generation finds no webhook node. -/
def helpersA : Helpers :=
  { generateNodesGraph := fun _ _ =>
      { nodeGraph := noNotesGraph, nameIndices := [], webhookNodeName := none },
    getNodeTypeForName := fun _ _ => none,
    stringifyGraph := fun _ => "graph",
    snakeCase := fun s => s }

/-- Helpers whose node-graph generation reports a webhook node named
`Webhook`. -/
def helpersWebhook : Helpers :=
  { generateNodesGraph := fun _ _ =>
      { nodeGraph := noNotesGraph, nameIndices := [("Webhook", "0")],
        webhookNodeName := some "Webhook" },
    getNodeTypeForName := fun _ _ => none,
    stringifyGraph := fun _ => "graph",
    snakeCase := fun s => s }

/-- A concrete instance state. -/
def stateA : InternalHooksState :=
  { telemetry := { ref := 0 }, versionCli := "0.1.0", nodeTypes := { ref := 0 } }

/-- A workflow with the truthy id `w1`. -/
def workflowW : Workflow := { id := some (JsId.str "w1"), tags := none }

/-- A finished manual run with no start-data destination node and an empty
`resultData.runData` object (in particular no entry for any webhook
node). -/
def runManualNoEntry : IRun :=
  { mode := "manual", finished := some true,
    data := { resultData :=
                { error := none, lastNodeExecuted := none, runData := [] },
              startData := none } }

/-- A finished non-manual (trigger) run. -/
def runSimple : IRun :=
  { mode := "trigger", finished := some true,
    data := { resultData :=
                { error := none, lastNodeExecuted := none, runData := [] },
              startData := none } }

/-! ## Claims about InternalHooksClass -/

/-- C1: counter to the never-rejects claim, `onWorkflowPostExecute` throws a
`TypeError` (so its promise rejects) for a manual execution of a workflow
whose node graph reports a webhook node with no entry in
`runData.data.resultData.runData`: the leftover debug block indexes
`runData[webhookNodeName][0]` unguarded. -/
theorem onWorkflowPostExecute_webhook_debug_throws :
    onWorkflowPostExecute helpersWebhook stateA "exec-1" workflowW
        (some runManualNoEntry) none =
      (stateA, Except.error (JsError.typeError
        "Cannot read properties of undefined (reading 0)")) := by
  rfl

/-- C8: a falsy workflow id (absent, empty string, or the number zero)
makes `onWorkflowPostExecute` resolve immediately with no effect at all:
no track, no workflow-execution track, no binary-data persistence. -/
theorem onWorkflowPostExecute_falsy_id (H : Helpers) (s : InternalHooksState)
    (executionId : String) (workflow : Workflow) (runData : Option IRun)
    (userId : Option String) (h : jsIdTruthy workflow.id = false) :
    onWorkflowPostExecute H s executionId workflow runData userId =
      (s, Except.ok []) := by
  unfold onWorkflowPostExecute
  simp [h]

/-- C8 witness: a workflow without an id resolves with no effect. -/
theorem onWorkflowPostExecute_falsy_id_witness :
    onWorkflowPostExecute helpersA stateA "exec-2"
        { id := none, tags := none } none none = (stateA, Except.ok []) :=
  onWorkflowPostExecute_falsy_id helpersA stateA "exec-2"
    { id := none, tags := none } none none (by decide)

/-- C3: `onN8nStop` settles at the race of `telemetry.trackN8nStop()`
against a 3000 ms timer: it settles at the earlier of the two instants,
hence never later than 3000 ms, resolving with the timer when
`trackN8nStop` has not settled strictly earlier. -/
theorem onN8nStopTimed_spec (trackN8nStop : TimedPromise) :
    (onN8nStopTimed trackN8nStop).settleAt = min trackN8nStop.settleAt 3000 ∧
    (onN8nStopTimed trackN8nStop).settleAt ≤ 3000 ∧
    (onN8nStopTimed trackN8nStop).outcome =
      (if trackN8nStop.settleAt < 3000 then trackN8nStop.outcome
       else PromiseOutcome.resolved) := by
  unfold onN8nStopTimed promiseRace setTimeoutPromise
  by_cases h : trackN8nStop.settleAt < 3000
  · simp [h] <;> omega
  · simp [h] <;> omega

/-- C5: `onWorkflowSaved` issues exactly one track call, named
`User saved workflow`; its overlapping and non-overlapping note counts sum
to the total number of notes of the generated node graph, and `num_tags` is
the tag count when tags are present and `0` otherwise. -/
theorem onWorkflowSaved_spec (H : Helpers) (s : InternalHooksState)
    (userId : String) (workflow : Workflow) (publicApi : Bool) :
    ∃ d : WorkflowSavedPayload,
      (onWorkflowSaved H s userId workflow publicApi).2 =
        [Effect.track "User saved workflow" (Payload.workflowSaved d)] ∧
      d.notes_count_overlapping + d.notes_count_non_overlapping =
        (H.generateNodesGraph workflow s.nodeTypes).nodeGraph.notes.length ∧
      d.num_tags = (match workflow.tags with
        | some tags => tags.length
        | none => 0) := by
  refine ⟨_, rfl, ?_, rfl⟩
  have hle := List.length_filter_le
    (fun kv => kv.2.overlapping)
    (H.generateNodesGraph workflow s.nodeTypes).nodeGraph.notes
  simp only [onWorkflowSaved]
  omega

/-- Helper: `onWorkflowPostExecute` returns its state unchanged on every
path. -/
theorem onWorkflowPostExecute_state_eq (H : Helpers) (s : InternalHooksState)
    (e : String) (w : Workflow) (r : Option IRun) (u : Option String) :
    (onWorkflowPostExecute H s e w r u).1 = s := by
  unfold onWorkflowPostExecute
  split
  · split
    · rfl
    · split
      · rfl
      · dsimp only
        split <;> rfl
  · rfl

/-- C6: no method of `InternalHooksClass` mutates the instance state: every
hook returns the `telemetry`, `versionCli` and `nodeTypes` fields exactly
as the constructor set them. -/
theorem internalHooks_no_state_mutation :
    (∀ s d e, (onServerStarted s d e).1 = s) ∧
    (∀ H s u a, (onPersonalizationSurveySubmitted H s u a).1 = s) ∧
    (∀ H s u w p, (onWorkflowCreated H s u w p).1 = s) ∧
    (∀ s u w p, (onWorkflowDeleted s u w p).1 = s) ∧
    (∀ H s u w p, (onWorkflowSaved H s u w p).1 = s) ∧
    (∀ H s e w r u, (onWorkflowPostExecute H s e w r u).1 = s) ∧
    (∀ s, (onN8nStop s).1 = s) ∧
    (∀ s u d p, (onUserDeletion s u d p).1 = s) ∧
    (∀ s d, (onUserInvite s d).1 = s) ∧
    (∀ s d, (onUserReinvite s d).1 = s) ∧
    (∀ s d, (onUserRetrievedUser s d).1 = s) ∧
    (∀ s d, (onUserRetrievedAllUsers s d).1 = s) ∧
    (∀ s d, (onUserRetrievedExecution s d).1 = s) ∧
    (∀ s d, (onUserRetrievedAllExecutions s d).1 = s) ∧
    (∀ s d, (onUserRetrievedWorkflow s d).1 = s) ∧
    (∀ s d, (onUserRetrievedAllWorkflows s d).1 = s) ∧
    (∀ s d, (onUserUpdate s d).1 = s) ∧
    (∀ s d, (onUserInviteEmailClick s d).1 = s) ∧
    (∀ s d, (onUserPasswordResetEmailClick s d).1 = s) ∧
    (∀ s d, (onUserTransactionalEmail s d).1 = s) ∧
    (∀ s d, (onUserInvokedApi s d).1 = s) ∧
    (∀ s d, (onApiKeyDeleted s d).1 = s) ∧
    (∀ s d, (onApiKeyCreated s d).1 = s) ∧
    (∀ s d, (onUserPasswordResetRequestClick s d).1 = s) ∧
    (∀ s d, (onInstanceOwnerSetup s d).1 = s) ∧
    (∀ s d, (onUserSignup s d).1 = s) ∧
    (∀ s d, (onEmailFailed s d).1 = s) :=
  ⟨fun _ _ _ => rfl, fun _ _ _ _ => rfl, fun _ _ _ _ _ => rfl,
   fun _ _ _ _ => rfl, fun _ _ _ _ _ => rfl,
   fun H s e w r u => onWorkflowPostExecute_state_eq H s e w r u,
   fun _ => rfl, fun _ _ _ _ => rfl, fun _ _ => rfl, fun _ _ => rfl,
   fun _ _ => rfl, fun _ _ => rfl, fun _ _ => rfl, fun _ _ => rfl,
   fun _ _ => rfl, fun _ _ => rfl, fun _ _ => rfl, fun _ _ => rfl,
   fun _ _ => rfl, fun _ _ => rfl, fun _ _ => rfl, fun _ _ => rfl,
   fun _ _ => rfl, fun _ _ => rfl, fun _ _ => rfl, fun _ _ => rfl,
   fun _ _ => rfl⟩

/-- Helper: looking up the key just written by `objSet` yields the written
value. -/
theorem lookupStr_objSet_self (obj : List (String × String)) (k v : String) :
    lookupStr (objSet obj k v) k = some v := by
  unfold objSet
  split
  case isTrue h =>
    induction obj with
    | nil => simp at h
    | cons kv rest ih =>
      by_cases hk : kv.1 = k
      · simp [lookupStr, List.find?, hk]
      · have hr : rest.any (fun kv => kv.1 = k) = true := by
          simp only [List.any_cons, hk] at h
          simpa using h
        simpa [lookupStr, List.find?, hk] using ih hr
  case isFalse h =>
    induction obj with
    | nil => simp [lookupStr, List.find?]
    | cons kv rest ih =>
      have hk : ¬ kv.1 = k := by
        intro hkk
        exact h (by simp [List.any_cons, hkk])
      have hr : ¬ rest.any (fun kv => kv.1 = k) = true := by
        intro hrr
        exact h (by simp [List.any_cons, hrr])
      simpa [lookupStr, List.find?, hk] using ih hr

/-- Helper: unfolding of `lookupStr` on a cons cell. -/
theorem lookupStr_cons (kv : String × String) (rest : List (String × String))
    (q : String) :
    lookupStr (kv :: rest) q =
      if kv.1 = q then some kv.2 else lookupStr rest q := by
  by_cases h : kv.1 = q <;> simp [lookupStr, List.find?_cons, h]

/-- Helper: `objSet` leaves the lookup of every other key unchanged. -/
theorem lookupStr_objSet_ne (obj : List (String × String)) (k v q : String)
    (hq : q ≠ k) : lookupStr (objSet obj k v) q = lookupStr obj q := by
  unfold objSet
  split
  case isTrue h =>
    clear h
    induction obj with
    | nil => rfl
    | cons kv rest ih =>
      rw [List.map_cons, lookupStr_cons, lookupStr_cons]
      by_cases hk : kv.1 = k
      · rw [if_pos hk]
        have h1 : ¬ ((k, v).1 = q) := fun hh => hq (Eq.symm hh)
        have h2 : ¬ (kv.1 = q) := by
          rw [hk]
          exact fun hh => hq (Eq.symm hh)
        rw [if_neg h1, if_neg h2]
        exact ih
      · rw [if_neg hk]
        by_cases hkq : kv.1 = q
        · rw [if_pos hkq, if_pos hkq]
        · rw [if_neg hkq, if_neg hkq]
          exact ih
  case isFalse h =>
    clear h
    induction obj with
    | nil =>
      have h1 : ¬ ((k, v).1 = q) := fun hh => hq (Eq.symm hh)
      simp [lookupStr, List.find?, h1]
    | cons kv rest ih =>
      rw [List.cons_append, lookupStr_cons, lookupStr_cons]
      by_cases hkq : kv.1 = q
      · rw [if_pos hkq, if_pos hkq]
      · rw [if_neg hkq, if_neg hkq]
        exact ih

/-- Helper: the keys present after `objSet` are the written key and the
previous keys. -/
theorem mem_key_objSet (obj : List (String × String)) (k v key : String) :
    (∃ w, (key, w) ∈ objSet obj k v) ↔ key = k ∨ ∃ w, (key, w) ∈ obj := by
  unfold objSet
  split
  case isTrue h =>
    constructor
    · rintro ⟨w, hw⟩
      rw [List.mem_map] at hw
      obtain ⟨kv, hkv, heq⟩ := hw
      by_cases hk : kv.1 = k
      · rw [if_pos hk] at heq
        injection heq with h1 h2
        exact Or.inl h1.symm
      · rw [if_neg hk] at heq
        exact Or.inr ⟨w, heq ▸ hkv⟩
    · rintro (rfl | ⟨w, hw⟩)
      · rw [List.any_eq_true] at h
        obtain ⟨kv, hkv, hk⟩ := h
        rw [decide_eq_true_eq] at hk
        exact ⟨v, List.mem_map.mpr ⟨kv, hkv, by rw [if_pos hk]⟩⟩
      · by_cases hk : key = k
        · subst hk
          rw [List.any_eq_true] at h
          obtain ⟨kv, hkv, hkk⟩ := h
          rw [decide_eq_true_eq] at hkk
          exact ⟨v, List.mem_map.mpr ⟨kv, hkv, by rw [if_pos hkk]⟩⟩
        · refine ⟨w, List.mem_map.mpr ⟨(key, w), hw, ?_⟩⟩
          rw [if_neg (by simpa using hk)]
  case isFalse h =>
    constructor
    · rintro ⟨w, hw⟩
      rw [List.mem_append] at hw
      rcases hw with hw | hw
      · exact Or.inr ⟨w, hw⟩
      · simp at hw
        exact Or.inl hw.1
    · rintro (rfl | ⟨w, hw⟩)
      · exact ⟨v, List.mem_append.mpr (Or.inr (by simp))⟩
      · exact ⟨w, List.mem_append.mpr (Or.inl hw)⟩

/-- Helper: entries whose converted key is never written by the loop keep
their lookup. -/
theorem surveyEntriesFrom_lookup_of_notin (f : String → String)
    (answers : List (String × String)) (acc : List (String × String))
    (k : String) (h : ∀ b ∈ answers, f b.1 ≠ k) :
    lookupStr (surveyEntriesFrom f acc answers) k = lookupStr acc k := by
  induction answers generalizing acc with
  | nil => rfl
  | cons a rest ih =>
    unfold surveyEntriesFrom at ih ⊢
    rw [List.foldl_cons]
    rw [ih (objSet acc (f a.1) a.2) (fun b hb => h b (List.mem_cons_of_mem a hb))]
    exact lookupStr_objSet_ne acc (f a.1) a.2 k
      (Ne.symm (h a (List.mem_cons_self a rest)))

/-- Helper: the keys of the built survey object are those of the start
object plus the converted keys of the answers. -/
theorem surveyEntriesFrom_keys (f : String → String)
    (answers : List (String × String)) (acc : List (String × String))
    (key : String) :
    (∃ w, (key, w) ∈ surveyEntriesFrom f acc answers) ↔
      (∃ w, (key, w) ∈ acc) ∨ ∃ a ∈ answers, f a.1 = key := by
  induction answers generalizing acc with
  | nil => simp [surveyEntriesFrom]
  | cons a rest ih =>
    unfold surveyEntriesFrom at ih ⊢
    rw [List.foldl_cons]
    rw [ih (objSet acc (f a.1) a.2)]
    rw [mem_key_objSet]
    constructor
    · rintro ((rfl | hacc) | hrest)
      · exact Or.inr ⟨a, List.mem_cons_self a rest, rfl⟩
      · exact Or.inl hacc
      · obtain ⟨b, hb, hbk⟩ := hrest
        exact Or.inr ⟨b, List.mem_cons_of_mem a hb, hbk⟩
    · rintro (hacc | ⟨b, hb, hbk⟩)
      · exact Or.inl (Or.inr hacc)
      · rcases List.mem_cons.mp hb with rfl | hb2
        · exact Or.inl (Or.inl hbk.symm)
        · exact Or.inr ⟨b, hb2, hbk⟩

/-- Helper: with distinct answer keys whose converted keys are injective,
every answer value is found under its converted key in the built object. -/
theorem surveyEntriesFrom_lookup (f : String → String)
    (answers : List (String × String)) (acc : List (String × String))
    (hnodup : (answers.map Prod.fst).Nodup)
    (hinj : ∀ a ∈ answers, ∀ b ∈ answers, f a.1 = f b.1 → a.1 = b.1) :
    ∀ kv ∈ answers,
      lookupStr (surveyEntriesFrom f acc answers) (f kv.1) = some kv.2 := by
  induction answers generalizing acc with
  | nil => intro kv hkv; simp at hkv
  | cons a rest ih =>
    intro kv hkv
    rw [List.map_cons, List.nodup_cons] at hnodup
    rcases List.mem_cons.mp hkv with rfl | hkv2
    · unfold surveyEntriesFrom
      rw [List.foldl_cons]
      have hnot : ∀ b ∈ rest, f b.1 ≠ f kv.1 := by
        intro b hb hfb
        have hb1 : b.1 = kv.1 :=
          hinj b (List.mem_cons_of_mem kv hb) kv (List.mem_cons_self kv rest)
            hfb
        exact hnodup.1 (hb1 ▸ List.mem_map_of_mem Prod.fst hb)
      have := surveyEntriesFrom_lookup_of_notin f rest
        (objSet acc (f kv.1) kv.2) (f kv.1) hnot
      unfold surveyEntriesFrom at this
      rw [this]
      exact lookupStr_objSet_self acc (f kv.1) kv.2
    · unfold surveyEntriesFrom
      rw [List.foldl_cons]
      have := ih (objSet acc (f a.1) a.2) hnodup.2
        (fun x hx y hy => hinj x (List.mem_cons_of_mem a hx) y
          (List.mem_cons_of_mem a hy)) kv hkv2
      unfold surveyEntriesFrom at this
      exact this

/-- Helpers whose `snakeCase` collapses every key to `k` (the change-case
`snakeCase` itself collapses distinct keys such as `fooBar` and `foo_bar`
to the same image). -/
def helpersCollide : Helpers :=
  { generateNodesGraph := fun _ _ =>
      { nodeGraph := noNotesGraph, nameIndices := [], webhookNodeName := none },
    getNodeTypeForName := fun _ _ => none,
    stringifyGraph := fun _ => "graph",
    snakeCase := fun _ => "k" }

/-- C7 counterexample: when two distinct answer keys have the same
snake-case image, the later value overwrites the earlier one, so the claim
that every converted key maps to the unchanged value of its original key
fails: with answers `a ↦ 1, b ↦ 2` both converting to `k`, the payload
holds `k ↦ 2` and the entry `a ↦ 1` is not recoverable. -/
theorem onPersonalizationSurvey_collision :
    (onPersonalizationSurveySubmitted helpersCollide stateA "u1"
        [("a", "1"), ("b", "2")]).2 =
      [Effect.track "User responded to personalization questions"
        (Payload.survey [("user_id", "u1"), ("k", "2")])] ∧
    ¬ (∀ kv ∈ [(("a" : String), ("1" : String)), ("b", "2")],
        lookupStr (surveyEntries helpersCollide "u1" [("a", "1"), ("b", "2")])
          (helpersCollide.snakeCase kv.1) = some kv.2) := by
  constructor
  · rfl
  · intro hall
    have h1 := hall ("a", "1") (by simp)
    have : lookupStr (surveyEntries helpersCollide "u1" [("a", "1"), ("b", "2")])
        (helpersCollide.snakeCase "a") = some "2" := by rfl
    rw [this] at h1
    simp at h1

/-- C7 (amended): provided `snakeCase` is injective on the keys of
`answers` (the answer keys themselves being distinct, as the keys of a
JavaScript object are), `onPersonalizationSurveySubmitted` tracks exactly
one event, `User responded to personalization questions`, whose payload
keys are exactly `user_id` plus the snake-case image of each answer key,
each image mapping to the unchanged value of its original key. -/
theorem onPersonalizationSurvey_spec (H : Helpers) (s : InternalHooksState)
    (userId : String) (answers : List (String × String))
    (hnodup : (answers.map Prod.fst).Nodup)
    (hinj : ∀ a ∈ answers, ∀ b ∈ answers,
      H.snakeCase a.1 = H.snakeCase b.1 → a.1 = b.1) :
    (onPersonalizationSurveySubmitted H s userId answers).2 =
      [Effect.track "User responded to personalization questions"
        (Payload.survey (surveyEntries H userId answers))] ∧
    (∀ key, (∃ w, (key, w) ∈ surveyEntries H userId answers) ↔
      key = "user_id" ∨ ∃ a ∈ answers, H.snakeCase a.1 = key) ∧
    (∀ kv ∈ answers,
      lookupStr (surveyEntries H userId answers) (H.snakeCase kv.1) =
        some kv.2) := by
  refine ⟨rfl, ?_, ?_⟩
  · intro key
    unfold surveyEntries
    rw [surveyEntriesFrom_keys]
    constructor
    · rintro (⟨w, hw⟩ | himg)
      · simp at hw
        exact Or.inl hw.1
      · exact Or.inr himg
    · rintro (rfl | himg)
      · exact Or.inl ⟨userId, by simp⟩
      · exact Or.inr himg
  · exact surveyEntriesFrom_lookup H.snakeCase answers
      [("user_id", userId)] hnodup hinj

/-- C7 witness: a single-answer survey satisfies the amended claim. -/
theorem onPersonalizationSurvey_spec_witness :
    (onPersonalizationSurveySubmitted helpersA stateA "u1" [("role", "dev")]).2 =
      [Effect.track "User responded to personalization questions"
        (Payload.survey (surveyEntries helpersA "u1" [("role", "dev")]))] ∧
    (∀ key, (∃ w, (key, w) ∈ surveyEntries helpersA "u1" [("role", "dev")]) ↔
      key = "user_id" ∨
        ∃ a ∈ [(("role" : String), ("dev" : String))],
          helpersA.snakeCase a.1 = key) ∧
    (∀ kv ∈ [(("role" : String), ("dev" : String))],
      lookupStr (surveyEntries helpersA "u1" [("role", "dev")])
        (helpersA.snakeCase kv.1) = some kv.2) :=
  onPersonalizationSurvey_spec helpersA stateA "u1" [("role", "dev")]
    (by decide) (by decide)

/-- Helper: the initial properties record carries the given workflow id
string and no error fields. -/
theorem initExecProps_fields (s : InternalHooksState) (idString : String)
    (userId : Option String) :
    (initExecProps s idString userId).workflow_id = idString ∧
    (initExecProps s idString userId).error_message = none ∧
    (initExecProps s idString userId).error_node_type = none := by
  unfold initExecProps
  split <;> exact ⟨rfl, rfl, rfl⟩

/-- Helper: the finished `properties` record keeps the initial workflow id,
takes mode, success and the manual flag from the run data, and carries
error fields only when the run was unsuccessful and an error is present. -/
theorem buildExecProps_fields (H : Helpers) (s : InternalHooksState)
    (workflow : Workflow) (p0 : ExecProps) (rd : IRun)
    (h0m : p0.error_message = none) (h0t : p0.error_node_type = none) :
    (buildExecProps H s workflow p0 rd).1.workflow_id = p0.workflow_id ∧
    (buildExecProps H s workflow p0 rd).1.success = boolTruthy rd.finished ∧
    (buildExecProps H s workflow p0 rd).1.is_manual = (rd.mode == "manual") ∧
    (buildExecProps H s workflow p0 rd).1.execution_mode = some rd.mode ∧
    ((buildExecProps H s workflow p0 rd).1.error_message ≠ none ∨
        (buildExecProps H s workflow p0 rd).1.error_node_type ≠ none →
      (buildExecProps H s workflow p0 rd).1.success = false ∧
        rd.data.resultData.error ≠ none) := by
  unfold buildExecProps
  cases hf : boolTruthy rd.finished <;>
    cases herr : rd.data.resultData.error <;>
      dsimp only <;> (repeat' split) <;> simp_all

/-- C2: whenever `onWorkflowPostExecute` is called with a truthy workflow
id and run data and its promise resolves, the last effect is the
`telemetry.trackWorkflowExecution` call, whose properties satisfy:
`success` is the truthiness of `runData.finished`, `is_manual` holds iff
the mode is `manual`, `execution_mode` is the mode, `workflow_id` is the
id converted to string, and the error fields are set only when the run was
unsuccessful and carries an error. -/
theorem onWorkflowPostExecute_execProps (H : Helpers) (s : InternalHooksState)
    (executionId : String) (workflow : Workflow) (rd : IRun)
    (userId : Option String) (effects : List Effect)
    (hid : jsIdTruthy workflow.id = true)
    (hok : (onWorkflowPostExecute H s executionId workflow (some rd) userId).2 =
      Except.ok effects) :
    ∃ p : ExecProps,
      effects.getLast? = some (Effect.trackWorkflowExecution p) ∧
      p.success = boolTruthy rd.finished ∧
      p.is_manual = (rd.mode == "manual") ∧
      p.execution_mode = some rd.mode ∧
      (∀ i, workflow.id = some i → p.workflow_id = jsIdToString i) ∧
      (p.error_message ≠ none ∨ p.error_node_type ≠ none →
        p.success = false ∧ rd.data.resultData.error ≠ none) := by
  unfold onWorkflowPostExecute at hok
  rw [hid] at hok
  cases hwid : workflow.id with
  | none => rw [hwid] at hid; simp [jsIdTruthy] at hid
  | some i =>
    rw [hwid] at hok
    simp only [if_true] at hok
    cases hme : manualExecEffects H s workflow i rd
        (buildExecProps H s workflow
          (initExecProps s (jsIdToString i) userId) rd).1
        (buildExecProps H s workflow
          (initExecProps s (jsIdToString i) userId) rd).2 with
    | error e =>
      rw [hme] at hok
      simp at hok
    | ok tracks =>
      rw [hme] at hok
      simp only [Except.ok.injEq] at hok
      subst hok
      have h0 := initExecProps_fields s (jsIdToString i) userId
      have hb := buildExecProps_fields H s workflow
        (initExecProps s (jsIdToString i) userId) rd h0.2.1 h0.2.2
      refine ⟨_, ?_, hb.2.1, hb.2.2.1, hb.2.2.2.1, ?_, hb.2.2.2.2⟩
      · rw [show tracks ++ [Effect.persistBinaryData executionId,
            Effect.trackWorkflowExecution (buildExecProps H s workflow
              (initExecProps s (jsIdToString i) userId) rd).1] =
            (tracks ++ [Effect.persistBinaryData executionId]) ++
              [Effect.trackWorkflowExecution (buildExecProps H s workflow
                (initExecProps s (jsIdToString i) userId) rd).1] by simp]
        exact List.getLast?_concat _
      · intro i2 hi2
        injection hi2 with hii
        subst hii
        rw [hb.1, h0.1]

/-- The execution track properties produced for the concrete trigger run
used by the C2 witness. -/
def execPropsW : ExecProps :=
  { workflow_id := "w1", is_manual := false, version_cli := "0.1.0",
    success := true, execution_mode := some "trigger" }

/-- C2 witness: a finished trigger-mode run of a workflow with id `w1`
produces a final `trackWorkflowExecution` effect with the claimed
properties. -/
theorem onWorkflowPostExecute_execProps_witness :
    ∃ p : ExecProps,
      ([Effect.persistBinaryData "e",
        Effect.trackWorkflowExecution execPropsW].getLast? =
          some (Effect.trackWorkflowExecution p)) ∧
      p.success = boolTruthy runSimple.finished ∧
      p.is_manual = (runSimple.mode == "manual") ∧
      p.execution_mode = some runSimple.mode ∧
      (∀ i, workflowW.id = some i → p.workflow_id = jsIdToString i) ∧
      (p.error_message ≠ none ∨ p.error_node_type ≠ none →
        p.success = false ∧ runSimple.data.resultData.error ≠ none) :=
  onWorkflowPostExecute_execProps helpersA stateA "e" workflowW runSimple none
    [Effect.persistBinaryData "e", Effect.trackWorkflowExecution execPropsW]
    (by decide) (by rfl)
